import Mathlib

/-!
Verification development for the TritonGPUToLLVM lowering pass
(lib/Conversion/TritonGPUToLLVM/TritonGPUToLLVM.cpp).

The definitions below are a shallow embedding of the pure index algebra and
of the lowering helpers of that file: machine integers are modelled by Nat
(all quantities involved are non-negative and no overflow is exercised by the
statements proved here), SmallVector by List, LLVM struct values by
List (Option V) with none standing for an undef field, and the fatal-error
exit of extractNumWarps by Except.  Out-of-range SmallVector indexing, which
is undefined behaviour in the C++ source, is made total with List.getD; the
theorems about concrete inputs below only exercise in-range accesses.
-/

namespace TritonToLLVM

/-- Blocked-layout descriptor (TritonGPUBlockedEncodingAttr): per dimension,
how many contiguous elements one thread owns, the thread grid of a warp, the
warp grid of a CTA, and the dimension traversal order (fastest first). -/
structure BlockedLayout where
  sizePerThread : List Nat
  threadsPerWarp : List Nat
  warpsPerCTA : List Nat
  order : List Nat

/-- getMultiDimIndex (lines 211-229): row-major decomposition of a linear
index against a shape.  The C++ starts with acc_mul = product of shape[1:]
and repeatedly divides acc_mul by the next extent; for the positive extents
the function is invoked with, that division chain reproduces the products of
the successive tails, which is how the recursion below computes it. -/
def getMultiDimIndex : Nat → List Nat → List Nat
  | _, [] => []
  | linearIndex, _ :: rest =>
    linearIndex / rest.prod :: getMultiDimIndex (linearIndex % rest.prod) rest

/-- getLinearIndex (lines 231-248): row-major linearization, the sum of
index[d] times the product of the extents after d. -/
def getLinearIndex : List Nat → List Nat → Nat
  | i :: is, _ :: rest => i * rest.prod + getLinearIndex is rest
  | _, _ => 0

/-- getElemsPerThread (lines 250-260): the loop elems *= shape[d] /
(threadsPerWarp[d] * warpsPerCTA[d]) over all dimensions.  Note that the
division is plain truncating integer division and that sizePerThread is not
consulted. -/
def getElemsPerThread (layout : BlockedLayout) (shape : List Nat) : Nat :=
  (List.range shape.length).foldl
    (fun elems d =>
      elems * (shape.getD d 0 /
        (layout.threadsPerWarp.getD d 0 * layout.warpsPerCTA.getD d 0))) 1

/-- Modelled from the spec (section 4.2): elementsPerLane as the product,
over dimensions, of shape[d] / (lanesPerWarp[d] * warpsPerBlock[d]).  Stated
separately from getElemsPerThread so that the two can be compared. -/
def specElemsPerLane (layout : BlockedLayout) (shape : List Nat) : Nat :=
  ((List.range shape.length).map
    (fun d => shape.getD d 0 /
      (layout.threadsPerWarp.getD d 0 * layout.warpsPerCTA.getD d 0))).prod

/-- delinearize without an order argument (lines 316-337): peels extents from
the back of the shape, storing remainder digits, and keeps the final quotient
(not reduced modulo the leading extent) as the leading coordinate.  For a
rank-1 shape the result is the linear value itself, exactly as in the C++. -/
def delinearize (linear : Nat) (shape : List Nat) : List Nat :=
  match shape with
  | [] => []
  | _ :: rest =>
    let p := rest.reverse.foldl
      (fun (ac : List Nat × Nat) s => ((ac.2 % s) :: ac.1, ac.2 / s))
      (([] : List Nat), linear)
    p.2 :: p.1

/-- The shape reordering done by the order-taking delinearize overload
(lines 303-314): reordered[i] = shape[order[i]]. -/
def reorderShape (shape order : List Nat) : List Nat :=
  order.map (fun o => shape.getD o 0)

/-- delinearize with an order argument (lines 303-314): delinearize against
the reordered shape.  Note the C++ returns the resulting coordinates without
applying the inverse permutation of order to them. -/
def delinearizeOrdered (linear : Nat) (shape order : List Nat) : List Nat :=
  delinearize linear (reorderShape shape order)

/-- The offset table of step 2 of emitIndicesForBlockedLayout (lines
383-409): for dimension k, all values blockOffset*spt*tpw*wpc +
warpOffset*spt*tpw + threadOffset*spt + elemOffset in the nesting order of
the four loops. -/
def offsetList (layout : BlockedLayout) (shape : List Nat) (k : Nat) : List Nat :=
  let spt := layout.sizePerThread.getD k 0
  let tpw := layout.threadsPerWarp.getD k 0
  let wpc := layout.warpsPerCTA.getD k 0
  let sh := shape.getD k 0
  (List.range (sh / (spt * tpw * wpc))).flatMap
    (fun blockOffset => (List.range wpc).flatMap
      (fun warpOffset => (List.range tpw).flatMap
        (fun threadOffset => (List.range spt).map
          (fun elemOffset =>
            blockOffset * spt * tpw * wpc + warpOffset * spt * tpw +
              threadOffset * spt + elemOffset))))

/-- emitIndicesForBlockedLayout (lines 342-443) as a pure function of the
thread id: laneId = tid % 32 and warpId = tid / 32 as in the source, warp and
lane coordinates via the order-taking delinearize, the per-dimension base
spt*(laneCoord + warpCoord*tpw), and for each of the elemsPerThread (product
of shape[k]/tpw[k]/wpc[k]) result entries the nano-tile id delinearized
against threadsPerDim[k] = shape[k]/spt[k] and the in-tile id delinearized
against sizePerThread, combined through the offset table.  The C++ indexes
offset[k] without a bounds check (undefined behaviour when out of range);
here getD returns 0 in that case. -/
def emitIndicesForBlockedLayout (layout : BlockedLayout) (shape : List Nat)
    (tid : Nat) : List (List Nat) :=
  let laneId := tid % 32
  let warpId := tid / 32
  let rank := shape.length
  let multiDimWarpId := delinearizeOrdered warpId layout.warpsPerCTA layout.order
  let multiDimThreadId := delinearizeOrdered laneId layout.threadsPerWarp layout.order
  let multiDimBase := (List.range rank).map
    (fun k => layout.sizePerThread.getD k 0 *
      (multiDimThreadId.getD k 0 +
        multiDimWarpId.getD k 0 * layout.threadsPerWarp.getD k 0))
  let multiDimElemsPerThread := (List.range rank).map
    (fun k => shape.getD k 0 / layout.threadsPerWarp.getD k 0 /
      layout.warpsPerCTA.getD k 0)
  let elemsPerThread := multiDimElemsPerThread.prod
  let accumSizePerThread := layout.sizePerThread.prod
  let threadsPerDim := (List.range rank).map
    (fun k => shape.getD k 0 / layout.sizePerThread.getD k 0)
  (List.range elemsPerThread).map (fun n =>
    let linearNanoTileId := n / accumSizePerThread
    let linearElemsInNanoTileId := n % accumSizePerThread
    let multiDimNanoTileId := getMultiDimIndex linearNanoTileId threadsPerDim
    let multiElemsInNanoTileId :=
      getMultiDimIndex linearElemsInNanoTileId layout.sizePerThread
    (List.range rank).map (fun k =>
      let reorderedMultiDimId := multiDimNanoTileId.getD k 0 *
          (layout.sizePerThread.getD k 0 * layout.threadsPerWarp.getD k 0 *
            layout.warpsPerCTA.getD k 0) +
        multiElemsInNanoTileId.getD k 0
      multiDimBase.getD k 0 + (offsetList layout shape k).getD reorderedMultiDimId 0))

/-- getStructFromElements (lines 291-301): starting from an undef struct of
the given arity, insert value number i into field i, in input order. -/
def getStructFromElements (resultVals : List α) (structArity : Nat) :
    List (Option α) :=
  resultVals.enum.foldl (fun st p => st.set p.1 (some p.2))
    (List.replicate structArity (none : Option α))

/-- getElementsFromStruct (lines 278-289): extract fields 0 .. elems-1 of the
struct, in order. -/
def getElementsFromStruct (llvmStruct : List (Option α)) (elems : Nat) :
    List (Option α) :=
  (List.range elems).map (fun i => llvmStruct.getD i none)

/-- numCtas of BroadcastOpConversion (lines 490-492): resultShape[d] divided
by sizePerThread[d]*threadsPerWarp[d]*warpsPerCTA[d]. -/
def numCtas (layout : BlockedLayout) (resultShape : List Nat) (d : Nat) : Nat :=
  resultShape.getD d 0 /
    (layout.sizePerThread.getD d 0 * layout.threadsPerWarp.getD d 0 *
      layout.warpsPerCTA.getD d 0)

/-- srcLogicalShape of BroadcastOpConversion (lines 484-506): position d
holds numCtas[d] (or 1 on a broadcast dimension) and position d + rank holds
sizePerThread[d] (or 1 on a broadcast dimension). -/
def srcLogicalShape (layout : BlockedLayout) (srcShape resultShape : List Nat) :
    List Nat :=
  ((List.range srcShape.length).map
    (fun d => if srcShape.getD d 0 = resultShape.getD d 0
      then numCtas layout resultShape d else 1)) ++
  ((List.range srcShape.length).map
    (fun d => if srcShape.getD d 0 = resultShape.getD d 0
      then layout.sizePerThread.getD d 0 else 1))

/-- resultLogicalShape of BroadcastOpConversion (lines 504-505): position d
holds numCtas[d] and position d + rank holds sizePerThread[d]. -/
def resultLogicalShape (layout : BlockedLayout) (resultShape : List Nat) :
    List Nat :=
  ((List.range resultShape.length).map (fun d => numCtas layout resultShape d)) ++
  ((List.range resultShape.length).map (fun d => layout.sizePerThread.getD d 0))

/-- broadcastDims (lines 493-496): the dimensions where source and result
extents differ. -/
def broadcastDims (srcShape resultShape : List Nat) : List Nat :=
  (List.range srcShape.length).filter
    (fun d => srcShape.getD d 0 ≠ resultShape.getD d 0)

/-- broadcastSizes (line 496): the result extents of the broadcast
dimensions. -/
def broadcastSizes (srcShape resultShape : List Nat) : List Nat :=
  (broadcastDims srcShape resultShape).map (fun d => resultShape.getD d 0)

/-- duplicates (lines 488-499): the product of the result extents of the
broadcast dimensions, accumulated one dimension at a time in the C++. -/
def duplicates (srcShape resultShape : List Nat) : Nat :=
  (broadcastSizes srcShape resultShape).prod

/-- The overwrite loop of BroadcastOpConversion (lines 517-519):
resultMultiDim[broadcastDims[m]] = bcastMultiDim[m] for each m. -/
def overwriteBroadcastDims (resultMultiDim dims bcast : List Nat) : List Nat :=
  (dims.zip bcast).foldl (fun md p => md.set p.1 p.2) resultMultiDim

/-- The value computation of BroadcastOpConversion::matchAndRewrite (lines
507-524): for every source element i and every combination j of broadcast
coordinates, write source value i into the result slot whose doubled-rank
logical index is the source index with the broadcast coordinates
overwritten.  Slots are fields of the result struct, none when never
written. -/
def broadcastLower (layout : BlockedLayout) (srcShape resultShape : List Nat)
    (srcVals : List α) : List (Option α) :=
  (List.range (getElemsPerThread layout srcShape)).foldl
    (fun resultVals i =>
      (List.range (duplicates srcShape resultShape)).foldl
        (fun resultVals j =>
          resultVals.set
            (getLinearIndex
              (overwriteBroadcastDims
                (getMultiDimIndex i (srcLogicalShape layout srcShape resultShape))
                (broadcastDims srcShape resultShape)
                (getMultiDimIndex j (broadcastSizes srcShape resultShape)))
              (resultLogicalShape layout resultShape))
            srcVals[i]?)
        resultVals)
    (List.replicate (getElemsPerThread layout resultShape) (none : Option α))

/-- vecWidth of LoadOpConversion (lines 615-616):
sizePerThread[order[0]] of the result layout. -/
def loadVecWidth (layout : BlockedLayout) : Nat :=
  layout.sizePerThread.getD (layout.order.getD 0 0) 0

/-- max_word_width of LoadOpConversion (line 627): max(32, nbits). -/
def maxWordWidth (nbits : Nat) : Nat := max 32 nbits

/-- tot_width of LoadOpConversion (line 628): nbits * vecWidth. -/
def totWidth (nbits vecWidth : Nat) : Nat := nbits * vecWidth

/-- width of LoadOpConversion (line 629): min(tot_width, max_word_width). -/
def loadWidth (nbits vecWidth : Nat) : Nat :=
  min (totWidth nbits vecWidth) (maxWordWidth nbits)

/-- n_words of LoadOpConversion (line 630): max(1, tot_width / width). -/
def loadNWords (nbits vecWidth : Nat) : Nat :=
  max 1 (totWidth nbits vecWidth / loadWidth nbits vecWidth)

/-- size = width / nbits, the element count of one hardware word (lines 693
and 771 of LoadOpConversion). -/
def wordSize (nbits vecWidth : Nat) : Nat := loadWidth nbits vecWidth / nbits

/-- The per-word element grouping of a load group starting at flat element i
(lines 692-701): word ii holds the elements at flat positions
i + ii*size + s for s below size. -/
def groupWords (mem : Nat → α) (i size nWords : Nat) : List (List α) :=
  (List.range nWords).map
    (fun ii => (List.range size).map (fun s => mem (i + ii * size + s)))

/-- The scalar extraction of a load group (lines 771-778): result ii comes
from element ii % tmp of returned word ii / tmp. -/
def extractGroup (rets : List (List α)) (vecWidth tmp : Nat) (dflt : α) :
    List α :=
  (List.range vecWidth).map
    (fun ii => (rets.getD (ii / tmp) []).getD (ii % tmp) dflt)

/-- extractNumWarps (lines 197-209): the integer value of the
triton_gpu.num-warps module attribute when present, and the fatal error
(report_fatal_error, modelled by Except.error) when absent. -/
def extractNumWarps : Option Nat → Except String Nat
  | some numWarps => Except.ok numWarps
  | none => Except.error
      "TritonGPU module should contain a triton_gpu.num-warps attribute"

/-- The three encoding kinds dispatched by convertTritonTensorType. -/
inductive TensorEncoding where
  | blocked (layout : BlockedLayout)
  | mma
  | shared

/-- convertTritonTensorType (lines 808-825): for a blocked layout, the
literal struct with getElemsPerThread copies of the converted element type
(returned as its field list); mma and shared layouts are unimplemented and
yield none. -/
def convertTritonTensorType (enc : TensorEncoding) (shape : List Nat)
    (convertedElemTy : α) : Option (List α) :=
  match enc with
  | TensorEncoding.blocked layout =>
      some (List.replicate (getElemsPerThread layout shape) convertedElemTy)
  | TensorEncoding.mma => none
  | TensorEncoding.shared => none

/-- Claim C1: the claim asserts that over all lanes and warps the indices
emitted by emitIndicesForBlockedLayout cover the logical index set exactly
and disjointly for every layout and shape satisfying the divisibility
invariant.  The code violates this: the order-taking delinearize reorders the
grid extents by order but never applies the inverse permutation to the
resulting coordinates, so they are consumed against the wrong dimensions.
For the layout sizePerThread=[1,1], threadsPerWarp=[2,16], warpsPerCTA=[1,1],
order=[1,0] and shape [2,16] (divisibility holds and one warp of 32 lanes
matches the thread grid), thread 5 emits the single index (2,1), which lies
outside the 2 x 16 tensor, and the valid index (0,2) is emitted by no thread
at all. -/
theorem c1_coverage_violation :
    emitIndicesForBlockedLayout ⟨[1, 1], [2, 16], [1, 1], [1, 0]⟩ [2, 16] 5 =
      [[2, 1]] ∧
    ((List.range 32).flatMap
      (fun tid =>
        emitIndicesForBlockedLayout ⟨[1, 1], [2, 16], [1, 1], [1, 0]⟩ [2, 16]
          tid)).contains [0, 2] = false :=
  ⟨rfl, rfl⟩

/-- Claim C2: the claim asserts that consecutive entries of one lane that
belong to the same contiguous run differ by 1 in the fastest-varying
dimension order[0] and agree elsewhere, so that contiguously owned elements
are adjacent in the emitted sequence.  The code violates this: the in-tile
index is delinearized against sizePerThread in plain row-major order,
ignoring order, so runs advance along the last dimension regardless of
order[0].  For sizePerThread=[2,2], threadsPerWarp=[32,1], warpsPerCTA=[1,1],
order=[0,1] (fastest dimension 0) and shape [64,2], thread 0 emits
(0,0),(0,1),(1,0),(1,1): entries 0 and 1 lie in the same nano tile but step
in dimension 1, and the pair (0,0),(1,0) owned contiguously along dimension 0
sits at positions 0 and 2 of the sequence, not adjacent. -/
theorem c2_adjacency_violation :
    emitIndicesForBlockedLayout ⟨[2, 2], [32, 1], [1, 1], [0, 1]⟩ [64, 2] 0 =
      [[0, 0], [0, 1], [1, 0], [1, 1]] :=
  rfl

/-- Claim C3: for a broadcast from shape [4,1] to [4,3] under the shared
layout sizePerThread=[1,1], threadsPerWarp=[4,1], warpsPerCTA=[1,1], each
lane holds a single source value v, and the lowered result struct holds that
v in all three of the fields owned by the lane.  The computation is uniform
in the lane id (it only rearranges the per-lane struct fields), so this
covers every lane, in particular lane 2. -/
theorem c3_broadcast_lane_values (v : Nat) :
    broadcastLower ⟨[1, 1], [4, 1], [1, 1], [0, 1]⟩ [4, 1] [4, 3] [v] =
      [some v, some v, some v] :=
  rfl

/-- Claim C7 counterexample: the claim asserts that a shape not divisible by
sizePerThread*threadsPerWarp*warpsPerCTA makes the element-count computation
raise a fatal configuration error.  The code has no such check: for the
layout sizePerThread=[1], threadsPerWarp=[2], warpsPerCTA=[1] and shape [3]
(3 is not divisible by 1*2*1), getElemsPerThread silently returns the
truncated quotient 3 / 2 = 1 instead of failing. -/
theorem c7_fatal_counterexample :
    getElemsPerThread ⟨[1], [2], [1], [0]⟩ [3] = 1 ∧ 3 % (1 * 2 * 1) ≠ 0 :=
  ⟨rfl, by decide⟩

/-- Claim C8: extractNumWarps returns the fatal error when the
triton_gpu.num-warps attribute is absent and the integer value of the
attribute when it is present. -/
theorem c8_extract_num_warps :
    (extractNumWarps none).isOk = false ∧
    ∀ v : Nat, extractNumWarps (some v) = Except.ok v :=
  ⟨rfl, fun _ => rfl⟩

/-- A valid multi-dimensional index linearizes below the shape product. -/
theorem getLinearIndex_lt {idx shape : List Nat}
    (h : List.Forall₂ (· < ·) idx shape) :
    getLinearIndex idx shape < shape.prod := by
  induction h with
  | nil => simp [getLinearIndex]
  | @cons a b l₁ l₂ hab htl ih =>
    show a * l₂.prod + getLinearIndex l₁ l₂ < (b :: l₂).prod
    rw [List.prod_cons]
    calc a * l₂.prod + getLinearIndex l₁ l₂
        < a * l₂.prod + l₂.prod := Nat.add_lt_add_left ih _
      _ = (a + 1) * l₂.prod := by ring
      _ ≤ b * l₂.prod := Nat.mul_le_mul_right _ hab

/-- Decomposing the linearization of a valid index recovers the index. -/
theorem getMultiDimIndex_getLinearIndex {idx shape : List Nat}
    (h : List.Forall₂ (· < ·) idx shape) :
    getMultiDimIndex (getLinearIndex idx shape) shape = idx := by
  induction h with
  | nil => rfl
  | @cons a b l₁ l₂ hab htl ih =>
    have hr : getLinearIndex l₁ l₂ < l₂.prod := getLinearIndex_lt htl
    have hp : 0 < l₂.prod := Nat.lt_of_le_of_lt (Nat.zero_le _) hr
    show (a * l₂.prod + getLinearIndex l₁ l₂) / l₂.prod ::
        getMultiDimIndex ((a * l₂.prod + getLinearIndex l₁ l₂) % l₂.prod) l₂ =
      a :: l₁
    rw [Nat.add_comm (a * l₂.prod) (getLinearIndex l₁ l₂)]
    rw [Nat.add_mul_div_right _ _ hp, Nat.div_eq_of_lt hr, Nat.zero_add]
    rw [Nat.add_mul_mod_self_right, Nat.mod_eq_of_lt hr, ih]

/-- Linearizing the decomposition of an in-range linear index recovers it. -/
theorem getLinearIndex_getMultiDimIndex (shape : List Nat) :
    ∀ l : Nat, l < shape.prod →
      getLinearIndex (getMultiDimIndex l shape) shape = l := by
  induction shape with
  | nil =>
    intro l hl
    simp only [List.prod_nil] at hl
    have : l = 0 := by omega
    subst this
    rfl
  | cons s rest ih =>
    intro l hl
    have hp : 0 < rest.prod := by
      rcases Nat.eq_zero_or_pos rest.prod with h0 | h0
      · rw [List.prod_cons, h0, Nat.mul_zero] at hl
        exact absurd hl (Nat.not_lt_zero l)
      · exact h0
    show l / rest.prod * rest.prod +
        getLinearIndex (getMultiDimIndex (l % rest.prod) rest) rest = l
    rw [ih _ (Nat.mod_lt _ hp), Nat.mul_comm]
    exact Nat.div_add_mod l rest.prod

/-- A multiply-accumulating foldl is the product of the mapped list. -/
theorem foldl_mul_eq_mul_prod (l : List Nat) (f : Nat → Nat) :
    ∀ init : Nat, l.foldl (fun a x => a * f x) init = init * (l.map f).prod := by
  induction l with
  | nil => intro init; simp
  | cons x xs ih =>
    intro init
    simp only [List.foldl_cons, List.map_cons, List.prod_cons]
    rw [ih]
    ring

/-- The multiply loop of getElemsPerThread computes the product formula that
the spec states for elementsPerLane. -/
theorem getElemsPerThread_eq_spec (layout : BlockedLayout) (shape : List Nat) :
    getElemsPerThread layout shape = specElemsPerLane layout shape := by
  unfold getElemsPerThread specElemsPerLane
  rw [foldl_mul_eq_mul_prod]
  exact Nat.one_mul _

/-- Field j of the struct built by inserting the enumerated values from
offset k into a struct st large enough to hold them. -/
theorem enumFrom_foldl_set_getElem? (vs : List α) :
    ∀ (k : Nat) (st : List (Option α)) (j : Nat), k + vs.length ≤ st.length →
      ((List.enumFrom k vs).foldl (fun st p => st.set p.1 (some p.2)) st)[j]? =
        if k ≤ j ∧ j < k + vs.length then (vs[j - k]?).map some else st[j]? := by
  induction vs with
  | nil =>
    intro k st j h
    simp only [List.enumFrom, List.foldl_nil, List.length_nil]
    rw [if_neg (by omega)]
  | cons a tl ih =>
    intro k st j h
    simp only [List.length_cons] at h ⊢
    simp only [List.enumFrom, List.foldl_cons]
    rw [ih (k + 1) (st.set k (some a)) j (by rw [List.length_set]; omega)]
    by_cases h1 : k + 1 ≤ j ∧ j < k + 1 + tl.length
    · rw [if_pos h1, if_pos (by omega)]
      have hjk : j - k = (j - (k + 1)) + 1 := by omega
      rw [hjk, List.getElem?_cons_succ]
    · rw [if_neg h1]
      by_cases h2 : j = k
      · subst h2
        rw [List.getElem?_set_eq_of_lt _ (by omega)]
        rw [if_pos (by omega), Nat.sub_self]
        simp
      · rw [List.getElem?_set_ne (by omega)]
        rw [if_neg (by omega)]

/-- Field j of getStructFromElements at matching arity: the j-th input value
for j in range, none beyond. -/
theorem getStructFromElements_getElem? (vs : List α) (j : Nat) :
    (getStructFromElements vs vs.length)[j]? =
      if j < vs.length then (vs[j]?).map some else none := by
  unfold getStructFromElements
  rw [show vs.enum = List.enumFrom 0 vs from rfl]
  rw [enumFrom_foldl_set_getElem? vs 0 _ j (by simp)]
  simp only [Nat.zero_add, Nat.sub_zero, Nat.zero_le, true_and]
  by_cases hj : j < vs.length
  · rw [if_pos hj, if_pos hj]
  · rw [if_neg hj, if_neg hj, List.getElem?_replicate, if_neg hj]

/-- Length is preserved by a fold of field writes. -/
theorem range_foldl_set_length (g : Nat → Option α) :
    ∀ (n : Nat) (st : List (Option α)),
      ((List.range n).foldl (fun acc i => acc.set i (g i)) st).length =
        st.length := by
  intro n
  induction n with
  | zero => intro st; rfl
  | succ m ih =>
    intro st
    rw [List.range_succ, List.foldl_append, List.foldl_cons, List.foldl_nil,
      List.length_set, ih]

/-- Field j after writing g i into field i for every i below n. -/
theorem range_foldl_set_getElem? (g : Nat → Option α) :
    ∀ (n : Nat) (st : List (Option α)) (j : Nat), n ≤ st.length →
      ((List.range n).foldl (fun acc i => acc.set i (g i)) st)[j]? =
        if j < n then some (g j) else st[j]? := by
  intro n
  induction n with
  | zero => intro st j h; simp
  | succ m ih =>
    intro st j h
    rw [List.range_succ, List.foldl_append, List.foldl_cons, List.foldl_nil]
    by_cases hj : j = m
    · subst hj
      rw [List.getElem?_set_eq_of_lt _ (by rw [range_foldl_set_length]; omega)]
      rw [if_pos (by omega)]
    · rw [List.getElem?_set_ne (by omega)]
      rw [ih st j (by omega)]
      by_cases hjm : j < m
      · rw [if_pos hjm, if_pos (by omega)]
      · rw [if_neg hjm, if_neg (by omega)]

/-- Writing value i of vs into slot i of an all-undef record of matching
arity yields exactly the values in order. -/
theorem range_foldl_set_eq_map_some (vs : List α) :
    (List.range vs.length).foldl (fun acc i => acc.set i vs[i]?)
      (List.replicate vs.length (none : Option α)) = vs.map some := by
  apply List.ext_getElem?
  intro j
  rw [range_foldl_set_getElem? (fun i => vs[i]?) vs.length _ j (by simp)]
  by_cases hj : j < vs.length
  · rw [if_pos hj, List.getElem?_map, List.getElem?_eq_getElem hj]
    rfl
  · rw [if_neg hj, List.getElem?_replicate, if_neg hj, List.getElem?_map,
      List.getElem?_eq_none (by omega)]
    rfl

/-- Exact division through a triple product: when s*t*w divides x, dividing x
by t*w equals dividing by s*t*w and multiplying back by s.  This is the
arithmetic fact linking getElemsPerThread to the doubled-rank logical shape
of the broadcast lowering. -/
theorem div_mul_of_dvd (s t w : Nat) {x : Nat} (h : s * t * w ∣ x) :
    x / (t * w) = x / (s * t * w) * s := by
  rcases h with ⟨m, rfl⟩
  rcases Nat.eq_zero_or_pos s with hs | hs
  · subst hs; simp
  rcases Nat.eq_zero_or_pos (t * w) with htw | htw
  · have h0 : s * t * w = 0 := by rw [Nat.mul_assoc, htw, Nat.mul_zero]
    rw [h0, Nat.zero_mul]
    simp
  · have hstw : 0 < s * t * w := by
      rw [Nat.mul_assoc]; exact Nat.mul_pos hs htw
    have h1 : s * t * w * m = t * w * (s * m) := by ring
    have hL : s * t * w * m / (t * w) = s * m := by
      rw [h1, Nat.mul_div_cancel_left _ htw]
    have hR : s * t * w * m / (s * t * w) = m := Nat.mul_div_cancel_left m hstw
    rw [hL, hR, Nat.mul_comm]

/-- Under the divisibility invariant, the product of the doubled-rank logical
shape (numCtas entries times sizePerThread entries) is getElemsPerThread. -/
theorem resultLogicalShape_prod (layout : BlockedLayout) (shape : List Nat)
    (hdiv : ∀ d, d < shape.length →
      layout.sizePerThread.getD d 0 * layout.threadsPerWarp.getD d 0 *
        layout.warpsPerCTA.getD d 0 ∣ shape.getD d 0) :
    (resultLogicalShape layout shape).prod = getElemsPerThread layout shape := by
  unfold resultLogicalShape
  rw [List.prod_append, ← List.prod_map_mul, getElemsPerThread_eq_spec]
  unfold specElemsPerLane
  apply congrArg List.prod
  apply List.map_congr_left
  intro d hd
  unfold numCtas
  exact (div_mul_of_dvd _ _ _ (hdiv d (List.mem_range.mp hd))).symm

/-- Claim C4: getMultiDimIndex and getLinearIndex are mutually inverse
row-major conversions: linearizing the decomposition of any in-range linear
index gives it back, and decomposing the linearization of any valid
multi-dimensional index gives it back. -/
theorem c4_index_roundtrip :
    (∀ (shape : List Nat) (l : Nat), l < shape.prod →
      getLinearIndex (getMultiDimIndex l shape) shape = l) ∧
    (∀ (idx shape : List Nat), List.Forall₂ (· < ·) idx shape →
      getMultiDimIndex (getLinearIndex idx shape) shape = idx) :=
  ⟨fun shape l hl => getLinearIndex_getMultiDimIndex shape l hl,
   fun _ _ h => getMultiDimIndex_getLinearIndex h⟩

/-- Witness for claim C4 at linear index 5 and index [1,2] of shape [2,3]. -/
theorem c4_index_roundtrip_witness :
    getLinearIndex (getMultiDimIndex 5 [2, 3]) [2, 3] = 5 ∧
    getMultiDimIndex (getLinearIndex [1, 2] [2, 3]) [2, 3] = [1, 2] :=
  ⟨c4_index_roundtrip.1 [2, 3] 5 (by decide),
   c4_index_roundtrip.2 [1, 2] [2, 3]
     (List.Forall₂.cons (by decide)
       (List.Forall₂.cons (by decide) List.Forall₂.nil))⟩

/-- Claim C5: the load lowering takes vecWidth = sizePerThread[order[0]], the
word width is min(max(32, elementBits), elementBits*vecWidth) and the word
count is max(1, elementBits*vecWidth / width); for elementBits 16 and
vecWidth 4 this gives width 32 and exactly 2 hardware words per group, and
the per-word extraction reassembles the 4 scalars of a group in original
per-lane order. -/
theorem c5_load_vector_width :
    (∀ nbits vecWidth : Nat,
      loadWidth nbits vecWidth = min (max 32 nbits) (nbits * vecWidth) ∧
      loadNWords nbits vecWidth =
        max 1 (nbits * vecWidth / loadWidth nbits vecWidth)) ∧
    loadVecWidth ⟨[1, 4], [8, 4], [1, 1], [1, 0]⟩ = 4 ∧
    loadWidth 16 4 = 32 ∧ loadNWords 16 4 = 2 ∧
    ∀ (mem : Nat → Nat) (i : Nat),
      extractGroup (groupWords mem i (wordSize 16 4) (loadNWords 16 4)) 4
          (wordSize 16 4) 0 =
        [mem i, mem (i + 1), mem (i + 2), mem (i + 3)] := by
  refine ⟨fun nbits vecWidth => ⟨?_, rfl⟩, rfl, rfl, rfl, fun mem i => rfl⟩
  unfold loadWidth totWidth maxWordWidth
  omega

/-- Claim C6: unpacking the struct built from any ordered value list with
matching arity returns the same values in the same order (fields read back as
the defined values, in input order). -/
theorem c6_pack_unpack_roundtrip {α : Type} (vs : List α) :
    getElementsFromStruct (getStructFromElements vs vs.length) vs.length =
      vs.map some := by
  apply List.ext_getElem?
  intro j
  unfold getElementsFromStruct
  rw [List.getElem?_map, List.getElem?_map]
  by_cases hj : j < vs.length
  · rw [List.getElem?_range hj, List.getElem?_eq_getElem hj,
      Option.map_some', Option.map_some']
    rw [List.getD_eq_getElem?_getD, getStructFromElements_getElem?, if_pos hj,
      List.getElem?_eq_getElem hj, Option.map_some']
    rfl
  · rw [List.getElem?_eq_none (by rw [List.length_range]; omega),
      List.getElem?_eq_none (by omega)]
    rfl

/-- Claim C7 (amended): getElemsPerThread raises no error at all; for every
layout and shape, divisible or not, it returns the product over dimensions of
the truncating integer quotient shape[d] / (threadsPerWarp[d] *
warpsPerCTA[d]) (sizePerThread is not consulted), and on the non-divisible
counterexample input it silently returns the truncated quotient 3 / 2. -/
theorem c7_amended_no_fatal_truncation :
    (∀ (layout : BlockedLayout) (shape : List Nat),
      getElemsPerThread layout shape =
        ((List.range shape.length).map
          (fun d => shape.getD d 0 /
            (layout.threadsPerWarp.getD d 0 *
              layout.warpsPerCTA.getD d 0))).prod) ∧
    getElemsPerThread ⟨[1], [2], [1], [0]⟩ [3] = 3 / 2 :=
  ⟨fun layout shape => getElemsPerThread_eq_spec layout shape, rfl⟩

/-- Claim C9: getElemsPerThread equals the product over dimensions of
shape[d] / (threadsPerWarp[d] * warpsPerCTA[d]), and type conversion of a
blocked-layout tensor yields the struct with exactly that many fields, each
the converted element type. -/
theorem c9_elems_per_thread_struct :
    ∀ (layout : BlockedLayout) (shape : List Nat) (elemTy : Nat),
      getElemsPerThread layout shape = specElemsPerLane layout shape ∧
      convertTritonTensorType (TensorEncoding.blocked layout) shape elemTy =
        some (List.replicate (specElemsPerLane layout shape) elemTy) := by
  intro layout shape elemTy
  refine ⟨getElemsPerThread_eq_spec layout shape, ?_⟩
  simp only [convertTritonTensorType]
  rw [getElemsPerThread_eq_spec]

/-- Claim C10: when source and result shapes coincide (no broadcast
dimension, duplicates = 1), the broadcast lowering is the identity on the
per-lane value sequence: under the divisibility invariant and with a source
struct of the expected arity, the output fields hold exactly the input values
in order. -/
theorem c10_broadcast_identity {α : Type} (layout : BlockedLayout)
    (shape : List Nat) (srcVals : List α)
    (hdiv : ∀ d, d < shape.length →
      layout.sizePerThread.getD d 0 * layout.threadsPerWarp.getD d 0 *
        layout.warpsPerCTA.getD d 0 ∣ shape.getD d 0)
    (hlen : srcVals.length = getElemsPerThread layout shape) :
    broadcastLower layout shape shape srcVals = srcVals.map some := by
  have hdims : broadcastDims shape shape = [] := by
    unfold broadcastDims
    apply List.filter_eq_nil_iff.mpr
    intro a _
    simp
  have hsizes : broadcastSizes shape shape = [] := by
    unfold broadcastSizes; rw [hdims]; rfl
  have hdups : duplicates shape shape = 1 := by
    unfold duplicates; rw [hsizes]; rfl
  have hlog : srcLogicalShape layout shape shape =
      resultLogicalShape layout shape := by
    unfold srcLogicalShape resultLogicalShape
    simp
  have hprod := resultLogicalShape_prod layout shape hdiv
  unfold broadcastLower
  rw [hdims, hsizes, hdups, hlog]
  rw [show List.range 1 = [0] from rfl]
  simp only [List.foldl_cons, List.foldl_nil]
  have hbody : ∀ (acc : List (Option α)),
      ∀ i ∈ List.range (getElemsPerThread layout shape),
      acc.set
        (getLinearIndex
          (overwriteBroadcastDims
            (getMultiDimIndex i (resultLogicalShape layout shape)) []
            (getMultiDimIndex 0 []))
          (resultLogicalShape layout shape)) srcVals[i]? =
      acc.set i srcVals[i]? := by
    intro acc i hi
    have hi' : i < (resultLogicalShape layout shape).prod := by
      rw [hprod]; exact List.mem_range.mp hi
    show acc.set
        (getLinearIndex (getMultiDimIndex i (resultLogicalShape layout shape))
          (resultLogicalShape layout shape)) srcVals[i]? = acc.set i srcVals[i]?
    rw [getLinearIndex_getMultiDimIndex _ _ hi']
  rw [List.foldl_ext _ _ _ hbody]
  rw [← hlen]
  exact range_foldl_set_eq_map_some srcVals

/-- Witness for claim C10: layout sizePerThread=[1], threadsPerWarp=[2],
warpsPerCTA=[1], shape [4] (2 divides 4), source values [10, 20]. -/
theorem c10_broadcast_identity_witness :
    broadcastLower ⟨[1], [2], [1], [0]⟩ [4] [4] [10, 20] = [10, 20].map some :=
  c10_broadcast_identity ⟨[1], [2], [1], [0]⟩ [4] [10, 20]
    (by
      intro d hd
      have : d = 0 := by simp at hd; omega
      subst this
      decide)
    rfl

end TritonToLLVM
